import Mathlib

/-!
Shallow embedding of the onchain-builders scoring pipeline from
`eval-algos/core/models/onchain_builders.py` (class
`OnchainBuildersCalculator` and its helpers), together with theorems
settling the specification claims about it.

Modelling conventions:
* a numeric cell is an `Option ℚ`: `none` stands for a missing value (NaN
  in the pandas/numpy implementation), `some q` for a finite float value;
* NaN propagation rules of the numpy/pandas operations used by the source
  are spelled out in dedicated helper functions, each annotated with the
  expression of the source it embeds;
* DataFrames are lists of rows (or, for the variant tables that the source
  itself builds column-wise from a dict of Series, lists of columns);
* python string helpers (`upper`, `lower`, `replace`, `in`) are embedded
  at the char-list level so that concrete instances evaluate.
-/

namespace RetroFunding

/-- Subtraction of two pandas/numpy scalars: NaN propagates through `-`. -/
def nanSub : Option ℚ → Option ℚ → Option ℚ
  | some x, some y => some (x - y)
  | _, _ => none

/-- Division of two pandas/numpy scalars: NaN propagates through `/`. -/
def nanDiv : Option ℚ → Option ℚ → Option ℚ
  | some x, some y => some (x / y)
  | _, _ => none

/-- Embedding of `np.minimum` on scalars: the elementwise minimum is NaN
as soon as one of the two arguments is NaN. -/
def npMinimum : Option ℚ → Option ℚ → Option ℚ
  | some x, some y => some (min x y)
  | _, _ => none

/-- Scalar equality as numpy evaluates it: any comparison with NaN is
false (in particular `NaN == NaN` is false). -/
def nanEq : Option ℚ → Option ℚ → Bool
  | some x, some y => x == y
  | _, _ => false

/-- Value of `np.min` on an array: NaN if any entry is NaN, otherwise the
least entry. The empty case returns `none`; the caller guards it. -/
def npMin : List (Option ℚ) → Option ℚ
  | [] => none
  | [a] => a
  | a :: rest => npMinimum a (npMin rest)

/-- Dual of `npMinimum`, used to fold `np.max`. -/
def npMaximum : Option ℚ → Option ℚ → Option ℚ
  | some x, some y => some (max x y)
  | _, _ => none

/-- Value of `np.max` on an array: NaN if any entry is NaN, otherwise the
greatest entry. -/
def npMax : List (Option ℚ) → Option ℚ
  | [] => none
  | [a] => a
  | a :: rest => npMaximum a (npMax rest)

/-- Linear-interpolation `np.percentile(values, q)` with its default
method. When the array contains NaN the result is NaN. -/
def npPercentile (values : List (Option ℚ)) (q : ℚ) : Option ℚ :=
  if values.any Option.isNone then none
  else
    let s := (values.filterMap id).mergeSort (fun a b => decide (a ≤ b))
    if s.length = 0 then none
    else
      let rank : ℚ := q / 100 * ((s.length : ℚ) - 1)
      let lo : ℕ := rank.floor.toNat
      let hi : ℕ := min (lo + 1) (s.length - 1)
      let g : ℚ := rank - (rank.floor : ℚ)
      some (s.getD lo 0 + g * (s.getD hi 0 - s.getD lo 0))

/-- Embedding of `OnchainBuildersCalculator._minmax_scale`: min-max
scaling of one column with optional percentile capping. The embedding
keeps the numpy NaN behaviour of the source: `np.percentile`,
`np.minimum`, `np.min` and `np.max` all propagate NaN, the
`max_val == min_val` test is false when both are NaN, and `np.ones_like`
produces `1.0` everywhere. -/
def minmaxScale (values : List (Option ℚ)) (percentile_cap : ℚ) : List (Option ℚ) :=
  if values.length = 0 then values
  else
    let capped :=
      if percentile_cap < 100 then
        let cap_value := npPercentile values percentile_cap
        values.map (fun v => npMinimum v cap_value)
      else values
    let min_val := npMin capped
    let max_val := npMax capped
    if nanEq max_val min_val then
      capped.map (fun _ => some 1)
    else
      capped.map (fun v => nanDiv (nanSub v min_val) (nanSub max_val min_val))

/-- Embedding of `_normalize_metric_variants`: apply `_minmax_scale` to
every (metric, variant) column of the variant table, which the source
builds column-wise. -/
def normalizeMetricVariants (cols : List ((String × String) × List (Option ℚ)))
    (percentile_cap : ℚ) : List ((String × String) × List (Option ℚ)) :=
  cols.map (fun c => (c.1, minmaxScale c.2 percentile_cap))

/-- Names of the configured metrics with weight strictly greater than
zero (`non_zero_metrics`). The configuration dict is modelled as an
association list. -/
def nonZeroMetrics (metrics : List (String × ℚ)) : List String :=
  (metrics.filter (fun mw => decide (0 < mw.2))).map (fun mw => mw.1)

/-- Adoption cell of `_calculate_metric_variants`: the current-period
value, missing when absent. -/
def adoptionVariant (cur : Option ℚ) : Option ℚ := cur

/-- Embedding of `Series.clip(lower=lo)` on one cell: clips non-null
values, leaves NaN as NaN. -/
def clipLower (lo : ℚ) : Option ℚ → Option ℚ := Option.map (fun x => max x lo)

/-- Growth cell of `_calculate_metric_variants`:
`(current_vals - prev_vals).clip(lower=0)`; the subtraction propagates
NaN, which the clip preserves. -/
def growthVariant (cur prev : Option ℚ) : Option ℚ := clipLower 0 (nanSub cur prev)

/-- Retention cell of `_calculate_metric_variants`:
`pd.concat([current_vals, prev_vals], axis=1).min(axis=1)`. The pandas
row-wise minimum uses its default `skipna=True`, so the result is the
minimum of the non-null entries and is NaN only when both entries are. -/
def retentionVariant (cur prev : Option ℚ) : Option ℚ :=
  match cur, prev with
  | some x, some y => some (min x y)
  | some x, none => some x
  | none, some y => some y
  | none, none => none

/-- The three dict insertions that `_calculate_metric_variants` performs
for one nonzero-weight metric: the adoption, growth and retention columns,
computed from the per-project current- and previous-period columns of the
chain-weighted table. -/
def variantBlock (cur prev : String → List (Option ℚ)) (m : String) :
    List ((String × String) × List (Option ℚ)) :=
  [((m, "adoption"), (cur m).map adoptionVariant),
   ((m, "growth"), List.zipWith growthVariant (cur m) (prev m)),
   ((m, "retention"), List.zipWith retentionVariant (cur m) (prev m))]

/-- Embedding of `_calculate_metric_variants`: the `variant_scores` dict,
one three-column block per metric with nonzero configured weight. -/
def calculateMetricVariants (metrics : List (String × ℚ))
    (cur prev : String → List (Option ℚ)) : List ((String × String) × List (Option ℚ)) :=
  (nonZeroMetrics metrics).flatMap (variantBlock cur prev)

/-- Pandas `sum()` with its defaults (`skipna=True`, `min_count=0`): the
sum of the non-null entries, `0` when every entry is null. -/
def seriesSum {α : Type} [AddCommMonoid α] (l : List (Option α)) : α :=
  (l.filterMap id).sum

/-- Score normalization inside `_prepare_final_results`:
`scores_series / scores_series.sum() if scores_series.sum() != 0 else
scores_series`. Dividing a null (NaN) score leaves it null. -/
def prepareScores {α : Type} [Field α] [DecidableEq α] (scores : List (Option α)) :
    List (Option α) :=
  if seriesSum scores ≠ 0 then scores.map (fun v => v.map (fun x => x / seriesSum scores))
  else scores

/-- Number of non-null weighted cells in one project row
(`df_agg.notna().sum(axis=1)`). -/
def notnaCount (row : List (Option ℚ)) : ℕ := (row.filterMap id).length

/-- Embedding of `df_agg.pow(2)` on one cell: squares a value, leaves NaN
as NaN. -/
def cellSq (v : Option ℚ) : Option ℚ := v.map (fun x => x ^ 2)

/-- Embedding of the `power_mean` branch (p = 2) of
`_aggregate_metric_variants` for one project row:
`((df_agg.pow(p).sum(axis=1, skipna=True) / counts) ** (1 / p)).where(counts > 0)`.
The square root lands in `ℝ`; the score is null exactly when the row has
no non-null cell. -/
noncomputable def powerMeanScore (row : List (Option ℚ)) : Option ℝ :=
  if 0 < notnaCount row then
    some (Real.sqrt (((seriesSum (row.map cellSq) / (notnaCount row : ℚ) : ℚ) : ℝ)))
  else none

/-- ASCII upper-casing, what python's `str.upper()` does on the chain
codes appearing in the data (`String.toUpper` at the char-list level, kept
kernel-reducible). -/
def upperStr (s : String) : String := ⟨s.data.map Char.toUpper⟩

/-- ASCII lower-casing, what python's `str.lower()` does on the metric and
period names appearing in the data. -/
def lowerStr (s : String) : String := ⟨s.data.map Char.toLower⟩

/-- Python's `s.replace(' ', '_')`. -/
def underscoreSpaces (s : String) : String :=
  ⟨s.data.map (fun c => if c = ' ' then '_' else c)⟩

/-- Does the pattern occur at the head of the list? Helper for the
substring tests below. -/
def headMatches : List Char → List Char → Bool
  | [], _ => true
  | _ :: _, [] => false
  | p :: ps, c :: cs => p == c && headMatches ps cs

/-- Does the pattern occur anywhere in the list? -/
def containsSub (pat : List Char) : List Char → Bool
  | [] => headMatches pat []
  | c :: cs => headMatches pat (c :: cs) || containsSub pat cs

/-- Python's substring test `pat in s`. -/
def stringContains (s pat : String) : Bool := containsSub pat.data s.data

/-- One row of the Step-1 pivoted table, indexed by
(project_id, project_name, display_name, chain); `cell p m` holds the
summed amount for measurement period `p` and metric `m`, or `none` when
the pivot has no observation there. -/
structure PivotRow where
  pid : String
  pname : String
  dname : String
  chain : String
  cell : String → String → Option ℚ

/-- The `chain_weights` series `{k.upper(): v for k, v in chains.items()}`:
configured chain codes are upper-cased; should two configured codes
collide after upper-casing, the later entry wins (python dict semantics),
hence the reversed association list. -/
def chainWeights (chains : List (String × ℚ)) : List (String × ℚ) :=
  (chains.map (fun kv => (upperStr kv.1, kv.2))).reverse

/-- Weight applied to one pivoted row:
`df.index.get_level_values('chain').map(chain_weights).fillna(1.0)`. The
row's chain code is looked up verbatim among the upper-cased configured
codes and defaults to `1.0` when absent. -/
def chainWeightLookup (chains : List (String × ℚ)) (c : String) : ℚ :=
  ((chainWeights chains).lookup c).getD 1

/-- Refinement target built from the claim's words, for comparison with
`chainWeightLookup`: a genuinely case-insensitive weight lookup, comparing
the upper-cased row code against the upper-cased configured codes. -/
def chainWeightLookupSpec (chains : List (String × ℚ)) (c : String) : ℚ :=
  ((chainWeights chains).lookup (upperStr c)).getD 1

/-- Index triple that Step 2 groups by. -/
def groupKey (r : PivotRow) : String × String × String := (r.pid, r.pname, r.dname)

/-- One row of the chain-weighted table of Step 2. Cells are plain
rationals: `groupby(...).sum()` with the pandas defaults (`min_count=0`)
sums the non-null weighted values of the group and yields `0.0` for an
all-null group. -/
structure WeightedRow where
  pid : String
  pname : String
  dname : String
  cell : String → String → ℚ

/-- Index triple of a chain-weighted row. -/
def wgroupKey (w : WeightedRow) : String × String × String := (w.pid, w.pname, w.dname)

/-- Embedding of `_sum_and_weight_raw_metrics_by_chain`: multiply every
cell of a chain row by the row's chain weight (`df.mul(..., axis=0)`, NaN
propagating) and sum over the rows of each
(project_id, project_name, display_name) group (`groupby(...).sum()`, NaN
skipped, empty groups summing to 0). -/
def sumAndWeightByChain (chains : List (String × ℚ)) (rows : List PivotRow) : List WeightedRow :=
  ((rows.map groupKey).dedup).map (fun k =>
    { pid := k.1, pname := k.2.1, dname := k.2.2,
      cell := fun p m =>
        ((rows.filter (fun r => groupKey r == k)).map
          (fun r => ((r.cell p m).map (fun v => v * chainWeightLookup chains r.chain)).getD 0)).sum })

/-- A pivoted row on the lower-case chain code `"base"` with every cell 1. -/
def c6Row : PivotRow :=
  { pid := "p1", pname := "n1", dname := "d1", chain := "base", cell := fun _ _ => some 1 }

/-- True when the lower-cased name contains `"tvl"`
(python `'tvl' in metric.lower()`). -/
def isTvlName (s : String) : Bool := stringContains (lowerStr s) ("tvl")

/-- The `all_metrics` list of Step 1: the nonzero-weight metrics, plus the
first TVL-tagged configured metric (regardless of weight) when one
exists. The python code aliases `all_metrics = non_zero_metrics` before
appending, so this is also the value `non_zero_metrics` has for the rest
of Step 1. -/
def allMetricsList (metrics : List (String × ℚ)) : List String :=
  match (metrics.map (fun mw => mw.1)).filter isTvlName with
  | [] => nonZeroMetrics metrics
  | t :: _ => nonZeroMetrics metrics ++ [t]

/-- Value of `tvl_metrics` as recomputed for the floor, filtering the
mutated `non_zero_metrics` list; a nonzero-weight TVL metric therefore
appears twice in it. -/
def tvlMetricsForFloor (metrics : List (String × ℚ)) : List String :=
  (allMetricsList metrics).filter isTvlName

/-- Chain-row total
`pivoted[period].reset_index().groupby('project_id')[m].sum()` read off
for one project and one metric: the metric's values summed across the
project's chain rows for the period, null cells contributing 0 and an
empty selection summing to 0. -/
def projectMetricChainSum (rows : List PivotRow) (pid p m : String) : ℚ :=
  ((rows.filter (fun r => r.pid == pid)).map (fun r => (r.cell p m).getD 0)).sum

/-- The `below_min` mask, `(total_tvl < tvl_minimum).any(axis=1)`: true
when any TVL metric's chain-summed total for the period is strictly below
the minimum. -/
def projectBelowTvlMin (tvlMin : ℚ) (tvlMs : List String) (rows : List PivotRow)
    (pid p : String) : Bool :=
  tvlMs.any (fun t => decide (projectMetricChainSum rows pid p t < tvlMin))

/-- One cell after the floor loop of Step 1: within each configured
period, TVL metric cells of projects below that period's minimum are set
to NaN. All totals come from the pre-floor table: the loop only nulls
columns of the period whose totals it has already read, and distinct
periods do not share columns. -/
def flooredCell (tvlMin : ℚ) (tvlMs periodsLabels : List String) (rows : List PivotRow)
    (r : PivotRow) (p m : String) : Option ℚ :=
  if periodsLabels.contains p && tvlMs.contains m &&
      projectBelowTvlMin tvlMin tvlMs rows r.pid p
  then none else r.cell p m

/-- The floor applied to the whole pivoted table. -/
def applyTvlFloor (tvlMin : ℚ) (tvlMs periodsLabels : List String)
    (rows : List PivotRow) : List PivotRow :=
  rows.map (fun r => { r with cell := flooredCell tvlMin tvlMs periodsLabels rows r })

/-- Step 1 gating: the floor runs only when `tvl_minimum > 0` (when no
TVL metric exists, `tvlMs` is empty and `flooredCell` is already the
identity, matching the `if tvl_metrics:` guard). -/
def pivotAndFloor (tvlMin : ℚ) (tvlMs periodsLabels : List String)
    (rows : List PivotRow) : List PivotRow :=
  if 0 < tvlMin then applyTvlFloor tvlMin tvlMs periodsLabels rows else rows

/-- A chain row of project `p1` on chain `OP` holding TVL 30 in the
current period. -/
def c7RowA : PivotRow :=
  { pid := "p1", pname := "n1", dname := "d1", chain := "OP",
    cell := fun p m => if p == "Jun 2025" && m == "defillama_tvl" then some 30 else none }

/-- A chain row of project `p1` on chain `BASE` holding TVL 20 in the
current period. -/
def c7RowB : PivotRow :=
  { pid := "p1", pname := "n1", dname := "d1", chain := "BASE",
    cell := fun p m => if p == "Jun 2025" && m == "defillama_tvl" then some 20 else none }

/-- Slug used by the flattener and by the TVL-column match:
`s.lower().replace(' ', '_')`. -/
def slug (s : String) : String := underscoreSpaces (lowerStr s)

/-- Embedding of `_flatten_columns._flat` on a
(measurement_period, metric_name) tuple column. `periodKeys` holds the
keys of the `periods` dict (`'current'`, `'previous'`), so the first
branch only fires when a period label literally equals such a key and a
weighted-table column normally falls through to the join branch;
`variantNames` holds the configured variant names. -/
def flatColName (periodKeys variantNames : List String) (col : String × String) : String :=
  if periodKeys.contains col.1 then
    slug col.2 ++ " [" ++ slug col.1 ++ "]"
  else if variantNames.contains col.2 then
    slug col.1 ++ "_" ++ lowerStr col.2 ++ "_variant"
  else
    slug col.1 ++ "_" ++ slug col.2

/-- The `tvl_columns` selection of `_apply_tvl_maximum_filter`: the
flattened chain-weighted columns whose name contains `'tvl'` and the slug
of the current period label. -/
def tvlColumns (periodKeys variantNames : List String) (currentPeriod : String)
    (cols : List (String × String)) : List (String × String) :=
  cols.filter (fun c =>
    stringContains (lowerStr (flatColName periodKeys variantNames c)) ("tvl") &&
    stringContains (lowerStr (flatColName periodKeys variantNames c)) (slug currentPeriod))

/-- Row total `total_tvl = df_pivoted_weighted[tvl_columns].sum(axis=1)`
for one chain-weighted row. -/
def weightedRowTvlTotal (periodKeys variantNames : List String) (currentPeriod : String)
    (cols : List (String × String)) (w : WeightedRow) : ℚ :=
  ((tvlColumns periodKeys variantNames currentPeriod cols).map (fun c => w.cell c.1 c.2)).sum

/-- Embedding of `_apply_tvl_maximum_filter`: when current-period TVL
columns exist, the score of every project whose TVL total strictly
exceeds the maximum is set to 0 (a null score as well); every other score
is returned unchanged. Without TVL columns the series is returned as is. -/
def applyTvlMaximumFilter {α : Type} [Zero α] (tvlMax : ℚ)
    (periodKeys variantNames : List String) (currentPeriod : String)
    (cols : List (String × String)) (rows : List WeightedRow)
    (scores : List (Option α)) : List (Option α) :=
  if tvlColumns periodKeys variantNames currentPeriod cols = [] then scores
  else
    (rows.zip scores).map (fun rs =>
      if tvlMax < weightedRowTvlTotal periodKeys variantNames currentPeriod cols rs.1
      then some 0 else rs.2)

/-- Comparator of `sort_values('weighted_score', ascending=False)`: larger
scores first, NaN scores last. -/
def scoreDescLe {α : Type} [LinearOrder α] (a b : WeightedRow × Option α) : Bool :=
  match a.2, b.2 with
  | some x, some y => decide (y ≤ x)
  | some _, none => true
  | none, some _ => false
  | none, none => true

/-- Embedding of `_prepare_final_results`: apply the TVL-maximum filter
when `tvl_maximum > 0`, divide the scores by their sum unless that sum is
zero, join them back onto the chain-weighted rows and sort by descending
normalized score. -/
def prepareFinalResults {α : Type} [LinearOrderedField α] [DecidableEq α] (tvlMax : ℚ)
    (periodKeys variantNames : List String) (currentPeriod : String)
    (cols : List (String × String)) (rows : List WeightedRow)
    (scores : List (Option α)) : List (WeightedRow × Option α) :=
  let scores2 :=
    if 0 < tvlMax then
      applyTvlMaximumFilter tvlMax periodKeys variantNames currentPeriod cols rows scores
    else scores
  (rows.zip (prepareScores scores2)).mergeSort scoreDescLe

/-- The flattened chain-weighted columns of the C8 witness table. -/
def c8Cols : List (String × String) := [("Jun 2025", "defillama_tvl"), ("Jun 2025", "dau")]

/-- A project over the TVL maximum (current-period TVL 1500). -/
def c8RowHigh : WeightedRow :=
  { pid := "p1", pname := "n1", dname := "d1",
    cell := fun _ m => if m == "defillama_tvl" then 1500 else 7 }

/-- A project under the TVL maximum (current-period TVL 10). -/
def c8RowLow : WeightedRow :=
  { pid := "p2", pname := "n2", dname := "d2",
    cell := fun _ m => if m == "defillama_tvl" then 10 else 9 }

/-- One raw observation row as `run_analysis` receives it (metric
observations left-merged with the optional project eligibility flag;
`is_eligible` is `none` when the project carries no flag). -/
structure RawRow where
  project_id : String
  project_name : String
  display_name : String
  chain : String
  metric_name : String
  measurement_period : String
  amount : ℚ
  is_eligible : Option Bool

/-- The `SimulationConfig` dataclass; the configuration dicts are
association lists in configuration order, with the dataclass defaults. -/
structure SimulationConfig where
  periods : List (String × String)
  chains : List (String × ℚ)
  metrics : List (String × ℚ)
  metric_variants : List (String × ℚ)
  tvl_minimum : ℚ := 0
  tvl_maximum : ℚ := 0
  eligibility_filter : Bool := false
  percentile_cap : ℚ := 100

/-- The eligibility filter at the top of `run_analysis`:
`df_data[df_data['is_eligible'] == True]` when the flag is enabled.
Pandas `== True` is false for NaN, so a row with a missing flag is
dropped. -/
def eligibilityFilter (flag : Bool) (rows : List RawRow) : List RawRow :=
  if flag then rows.filter (fun r => r.is_eligible == some true) else rows

/-- Period labels, `list(periods.values())`. -/
def periodsLabelsOf (periods : List (String × String)) : List String :=
  periods.map (fun kv => kv.2)

/-- The Step 1 query,
`metric_name in @all_metrics and measurement_period in @periods_list`. -/
def filteredRaw (metrics : List (String × ℚ)) (periods : List (String × String))
    (rows : List RawRow) : List RawRow :=
  rows.filter (fun r => (allMetricsList metrics).contains r.metric_name &&
    (periodsLabelsOf periods).contains r.measurement_period)

/-- Pivot index quadruple of Step 1. -/
def rawKey (r : RawRow) : String × String × String × String :=
  (r.project_id, r.project_name, r.display_name, r.chain)

/-- One pivot cell: the sum of the matching amounts (`aggfunc='sum'`), or
NaN when no filtered observation matches the index and column. -/
def pivotCellOf (frows : List RawRow) (k : String × String × String × String)
    (p m : String) : Option ℚ :=
  let ms := frows.filter (fun r => rawKey r == k && r.measurement_period == p &&
    r.metric_name == m)
  if ms.isEmpty then none else some ((ms.map (fun r => r.amount)).sum)

/-- The Step 1 pivot (before the floor): one row per distinct index
quadruple of the filtered observations. -/
def pivotStage (metrics : List (String × ℚ)) (periods : List (String × String))
    (rows : List RawRow) : List PivotRow :=
  ((((filteredRaw metrics periods rows).map rawKey).dedup)).map (fun k =>
    { pid := k.1, pname := k.2.1, dname := k.2.2.1, chain := k.2.2.2,
      cell := pivotCellOf (filteredRaw metrics periods rows) k })

/-- A `df[(period, metric)]` column of the chain-weighted table as Step 3
reads it: plain rationals wrapped back into optional values. The
embedding gives absent columns the value 0 everywhere, where pandas would
raise a KeyError; the claims do not exercise that case. -/
def weightedColumn (ws : List WeightedRow) (p m : String) : List (Option ℚ) :=
  ws.map (fun w => some (w.cell p m))

/-- Step 3 applied to the chain-weighted table. -/
def variantsStage (metrics : List (String × ℚ)) (curP prevP : String)
    (ws : List WeightedRow) : List ((String × String) × List (Option ℚ)) :=
  calculateMetricVariants metrics (weightedColumn ws curP) (weightedColumn ws prevP)

/-- Step 5: multiply each (metric, variant) column by
`metric_weight * variant_weight` when both are configured, as the nested
loop over the two configuration dicts does; other columns are untouched. -/
def applyWeights (metrics metric_variants : List (String × ℚ))
    (cols : List ((String × String) × List (Option ℚ))) :
    List ((String × String) × List (Option ℚ)) :=
  cols.map (fun c =>
    match metrics.lookup c.1.1, metric_variants.lookup c.1.2 with
    | some mw, some vw => (c.1, c.2.map (Option.map (fun x => x * (mw * vw))))
    | _, _ => c)

/-- The python default argument of `_aggregate_metric_variants`. -/
def defaultAggregationMethod : String := "power_mean"

/-- Row `i` of the column-major weighted-variant table. -/
def rowOfColumns (cols : List ((String × String) × List (Option ℚ))) (i : ℕ) :
    List (Option ℚ) :=
  cols.map (fun c => c.2.getD i none)

/-- Embedding of `_aggregate_metric_variants`: dispatch on the method
name. The `power_mean` branch scores every project row with the p = 2
power mean, the `sum` branch adds the non-null cells, and any other name
raises `ValueError(f"Invalid aggregation method: {method}")`. -/
noncomputable def aggregateMetricVariants (method : String)
    (cols : List ((String × String) × List (Option ℚ))) (nProjects : ℕ) :
    Except String (List (Option ℝ)) :=
  if method = "power_mean" then
    Except.ok ((List.range nProjects).map (fun i => powerMeanScore (rowOfColumns cols i)))
  else if method = "sum" then
    Except.ok ((List.range nProjects).map (fun i =>
      some ((seriesSum (rowOfColumns cols i) : ℚ) : ℝ)))
  else Except.error ("Invalid aggregation method: " ++ method)

/-- Steps 1-7 of `run_analysis`, after the eligibility filter: pivot and
floor, chain weighting, variants, normalization, weighting, aggregation
with the default method, and final results. -/
noncomputable def pipelineAfterEligibility (cfg : SimulationConfig) (rows : List RawRow) :
    Except String (List (WeightedRow × Option ℝ)) :=
  let piv := pivotAndFloor cfg.tvl_minimum (tvlMetricsForFloor cfg.metrics)
    (periodsLabelsOf cfg.periods) (pivotStage cfg.metrics cfg.periods rows)
  let ws := sumAndWeightByChain cfg.chains piv
  let curP := (cfg.periods.lookup ("current")).getD ("")
  let prevP := (cfg.periods.lookup ("previous")).getD ("")
  let weighted := applyWeights cfg.metrics cfg.metric_variants
    (normalizeMetricVariants (variantsStage cfg.metrics curP prevP ws) cfg.percentile_cap)
  let wcols := ((filteredRaw cfg.metrics cfg.periods rows).map
    (fun r => (r.measurement_period, r.metric_name))).dedup
  (aggregateMetricVariants defaultAggregationMethod weighted ws.length).map
    (fun scores => prepareFinalResults cfg.tvl_maximum (cfg.periods.map (fun kv => kv.1))
      (cfg.metric_variants.map (fun kv => kv.1)) curP wcols ws scores)

/-- Embedding of `run_analysis`: optional eligibility filtering first,
then the rest of the pipeline. -/
noncomputable def runAnalysis (cfg : SimulationConfig) (rows : List RawRow) :
    Except String (List (WeightedRow × Option ℝ)) :=
  pipelineAfterEligibility cfg (eligibilityFilter cfg.eligibility_filter rows)

/-- A raw observation row of a project carrying no eligibility flag. -/
def c9Row : RawRow :=
  { project_id := "p", project_name := "n", display_name := "d", chain := "OP",
    metric_name := "dau", measurement_period := "Jun 2025", amount := 1,
    is_eligible := none }

/-- A raw observation row of a project explicitly flagged eligible. -/
def c9KeptRow : RawRow :=
  { project_id := "q", project_name := "n2", display_name := "d2", chain := "OP",
    metric_name := "dau", measurement_period := "Jun 2025", amount := 2,
    is_eligible := some true }

/-! Helper lemmas. -/

lemma seriesSum_def {α : Type} [AddCommMonoid α] (l : List (Option α)) :
    seriesSum l = (l.filterMap id).sum := rfl

lemma list_sum_div {α : Type} [DivisionRing α] (l : List α) (s : α) :
    (l.map (fun x => x / s)).sum = l.sum / s := by
  induction l with
  | nil => simp
  | cons a t ih => simp [ih, add_div]

lemma filterMap_id_map_map {α β : Type} (f : α → β) (l : List (Option α)) :
    (l.map (fun v => v.map f)).filterMap id = (l.filterMap id).map f := by
  rw [List.filterMap_map, List.map_filterMap]
  rfl

lemma seriesSum_map_div {α : Type} [Field α] (scores : List (Option α)) (s : α) :
    seriesSum (scores.map (fun v => v.map (fun x => x / s))) = seriesSum scores / s := by
  rw [seriesSum_def, filterMap_id_map_map, list_sum_div, seriesSum_def]

lemma seriesSum_map_cellSq (row : List (Option ℚ)) :
    seriesSum (row.map cellSq) = ((row.filterMap id).map (fun x => x ^ 2)).sum := by
  rw [seriesSum_def, show cellSq = fun v => v.map (fun x => x ^ 2) from rfl,
    filterMap_id_map_map]

lemma applyTvlMaximumFilter_length {α : Type} [Zero α] (tvlMax : ℚ)
    (periodKeys variantNames : List String) (currentPeriod : String)
    (cols : List (String × String)) (rows : List WeightedRow)
    (scores : List (Option α)) (hlen : rows.length = scores.length) :
    (applyTvlMaximumFilter tvlMax periodKeys variantNames currentPeriod cols rows
      scores).length = scores.length := by
  unfold applyTvlMaximumFilter
  by_cases h : tvlColumns periodKeys variantNames currentPeriod cols = []
  · rw [if_pos h]
  · rw [if_neg h, List.length_map, List.length_zip, hlen, min_self]

lemma prepareScores_length {α : Type} [Field α] [DecidableEq α] (scores : List (Option α)) :
    (prepareScores scores).length = scores.length := by
  unfold prepareScores
  by_cases h : seriesSum scores ≠ 0
  · rw [if_pos h, List.length_map]
  · rw [if_neg h]

/-! Claim theorems. -/

/-- C1: evaluation of the Normalizer at a failing input. The column holds
one non-null cell `1` and one null cell, with the default
`percentile_cap = 100`. The claim requires the non-null cell to map into
[0,1] and the null never to participate in the min/max computation, but
the source computes `np.min`/`np.max` (not the nan-aware variants), so the
NaN participates, both extrema become NaN and every cell of the column is
mapped to null. -/
theorem C1_normalizer_null_wipes_column :
    normalizeMetricVariants [(("m", "adoption"), [some 1, none])] 100 =
      [(("m", "adoption"), [none, none])] := by decide

/-- C2 counterexample: with one nonzero-weight metric and one project whose
current value is `5` while the previous value is missing, the retention
column computed by the code is `[some 5]`, not `[none]` as the claim
("null unless both present") requires: pandas `min(axis=1)` skips NaN. -/
theorem C2_counterexample :
    ((("m", "retention"), [some (5:ℚ)]) ∈
        calculateMetricVariants [("m", 1)] (fun _ => [some 5]) (fun _ => [none])) ∧
      [some (5:ℚ)] ≠ ([none] : List (Option ℚ)) := by
  constructor
  · decide
  · decide

/-- C2 (amended): for every metric with nonzero configured weight, the
retention column is the pairwise pandas `min(axis=1, skipna=True)` of the
current- and previous-period columns: `min current previous` when both
values are present, the present value when exactly one is present, and
null only when both are missing. -/
theorem C2_retention_skipna_min (metrics : List (String × ℚ))
    (cur prev : String → List (Option ℚ)) (m : String)
    (hm : m ∈ nonZeroMetrics metrics) :
    ((m, "retention"), List.zipWith retentionVariant (cur m) (prev m)) ∈
        calculateMetricVariants metrics cur prev ∧
    (∀ a b : ℚ, retentionVariant (some a) (some b) = some (min a b)) ∧
    (∀ a : ℚ, retentionVariant (some a) none = some a) ∧
    (∀ b : ℚ, retentionVariant none (some b) = some b) ∧
    retentionVariant none none = none := by
  refine ⟨List.mem_flatMap.mpr ⟨m, hm, ?_⟩, fun a b => rfl, fun a => rfl, fun b => rfl, rfl⟩
  simp [variantBlock]

/-- Instantiation of the amended C2 theorem on a concrete table: three
projects with current values `[3, 2, null]` and previous values
`[4, null, null]` yield the retention column `[3, 2, null]`. -/
theorem C2_retention_skipna_min_witness :
    ((("m", "retention"), [some (3:ℚ), some 2, none]) ∈
      calculateMetricVariants [("m", 1)] (fun _ => [some 3, some 2, none])
        (fun _ => [some 4, none, none])) := by
  have h := (C2_retention_skipna_min [("m", 1)] (fun _ => [some 3, some 2, none])
    (fun _ => [some 4, none, none]) ("m") (by decide)).1
  have e : List.zipWith retentionVariant [some (3:ℚ), some 2, none] [some 4, none, none] =
      [some (3:ℚ), some 2, none] := by decide
  rw [e] at h
  exact h

/-- C3: when every aggregated score is nonnegative (which holds for the
pipeline's `power_mean` scores, also after the TVL-maximum zeroing) and at
least one project has a nonzero score, the `weighted_score` column sums to
exactly 1 — each score is divided by the sum of all scores, nulls staying
null and being skipped by the sum — and when the sum of all scores is 0
the scores are returned unchanged rather than divided by zero. The final
conjunct carries the sum over to the sorted final-results table. -/
theorem C3_weighted_score_normalization (scores : List (Option ℚ))
    (hpos : ∀ x ∈ scores.filterMap id, 0 ≤ x) :
    ((∃ x ∈ scores.filterMap id, x ≠ 0) → seriesSum (prepareScores scores) = 1) ∧
    (seriesSum scores = 0 → prepareScores scores = scores) ∧
    (∀ (periodKeys variantNames : List String) (currentPeriod : String)
        (cols : List (String × String)) (rows : List WeightedRow),
      rows.length = scores.length →
        seriesSum ((prepareFinalResults 0 periodKeys variantNames currentPeriod cols rows
          scores).map Prod.snd) = seriesSum (prepareScores scores)) := by
  refine ⟨?_, ?_, ?_⟩
  · rintro ⟨x, hx, hxne⟩
    have hxpos : 0 < x := lt_of_le_of_ne (hpos x hx) (Ne.symm hxne)
    have hsum : 0 < seriesSum scores := by
      rw [seriesSum_def]
      exact lt_of_lt_of_le hxpos (List.single_le_sum hpos x hx)
    have hne : seriesSum scores ≠ 0 := ne_of_gt hsum
    rw [prepareScores, if_pos hne, seriesSum_map_div, div_self hne]
  · intro h
    rw [prepareScores, if_neg (not_not_intro h)]
  · intro pk vn cur cols rows hlen
    have hns : ¬ (0 : ℚ) < 0 := lt_irrefl 0
    have hlen2 : (prepareScores scores).length ≤ rows.length := by
      rw [prepareScores_length, hlen]
    have hperm := (List.mergeSort_perm (rows.zip (prepareScores scores)) scoreDescLe).map
      Prod.snd
    rw [List.map_snd_zip rows (prepareScores scores) hlen2] at hperm
    have hred : prepareFinalResults 0 pk vn cur cols rows scores =
        (rows.zip (prepareScores scores)).mergeSort scoreDescLe := by
      simp only [prepareFinalResults]
      rw [if_neg hns]
    rw [hred, seriesSum_def, seriesSum_def]
    exact (hperm.filterMap id).sum_eq

/-- Instantiation of the C3 theorem: scores `[3, 1, null]` normalize to
`[3/4, 1/4, null]`, whose non-null entries sum to exactly 1. -/
theorem C3_weighted_score_normalization_witness :
    seriesSum (prepareScores ([some 3, some 1, none] : List (Option ℚ))) = 1 :=
  (C3_weighted_score_normalization [some 3, some 1, none] (by decide)).1
    ⟨3, by decide, by decide⟩

/-- C4: under `power_mean` aggregation with `p = 2` a project's score is
`sqrt((Σ cell²)/n)` where both the sum and the count `n` range over the
project's non-null weighted cells only; the score is null (not zero) when
`n = 0`; and the row `[0.5, null, 0.5]` scores exactly `0.5`. -/
theorem C4_power_mean_score (row : List (Option ℚ)) :
    (0 < notnaCount row →
      powerMeanScore row =
        some (Real.sqrt (((((row.filterMap id).map (fun x => x ^ 2)).sum /
          ((row.filterMap id).length : ℚ) : ℚ) : ℝ)))) ∧
    (notnaCount row = 0 → powerMeanScore row = none) ∧
    powerMeanScore [some (1 / 2), none, some (1 / 2)] = some (1 / 2) := by
  refine ⟨?_, ?_, ?_⟩
  · intro h
    rw [powerMeanScore, if_pos h, seriesSum_map_cellSq]
    rfl
  · intro h
    rw [powerMeanScore, if_neg (by simp [h])]
  · have hq : (seriesSum ([some (1 / 2 : ℚ), none, some (1 / 2)].map cellSq) /
        (notnaCount [some (1 / 2 : ℚ), none, some (1 / 2)] : ℚ) : ℚ) = 1 / 4 := by
      have hfm : List.filterMap id [some (1 / 2 : ℚ), none, some (1 / 2)] = [1 / 2, 1 / 2] := by
        simp
      rw [seriesSum_map_cellSq, notnaCount, hfm]
      norm_num
    rw [powerMeanScore, if_pos (by decide), hq]
    have h14 : ((1 / 4 : ℚ) : ℝ) = (1 / 2 : ℝ) ^ 2 := by norm_num
    rw [h14, Real.sqrt_sq (by norm_num : (0 : ℝ) ≤ 1 / 2)]

/-- Instantiation of the C4 theorem on the row `[3, 4]`: the score is
`sqrt((9 + 16) / 2)`. -/
theorem C4_power_mean_score_witness :
    powerMeanScore [some (3 : ℚ), some 4] =
      some (Real.sqrt ((((([some (3 : ℚ), some 4].filterMap id).map (fun x => x ^ 2)).sum /
        (([some (3 : ℚ), some 4].filterMap id).length : ℚ) : ℚ) : ℝ))) :=
  (C4_power_mean_score [some 3, some 4]).1 (by decide)

/-- C5: for every metric with nonzero configured weight the growth column
is the pairwise `(current - previous).clip(lower=0)`: `max 0 (a - b)` when
both period values are present — hence never negative — and null whenever
either period value is missing. -/
theorem C5_growth_variant (metrics : List (String × ℚ))
    (cur prev : String → List (Option ℚ)) (m : String)
    (hm : m ∈ nonZeroMetrics metrics) :
    ((m, "growth"), List.zipWith growthVariant (cur m) (prev m)) ∈
        calculateMetricVariants metrics cur prev ∧
    (∀ a b : ℚ, growthVariant (some a) (some b) = some (max 0 (a - b))) ∧
    (∀ c p : Option ℚ, c = none ∨ p = none → growthVariant c p = none) ∧
    (∀ (c p : Option ℚ) (x : ℚ), growthVariant c p = some x → 0 ≤ x) := by
  refine ⟨List.mem_flatMap.mpr ⟨m, hm, ?_⟩, ?_, ?_, ?_⟩
  · simp [variantBlock]
  · intro a b
    simp [growthVariant, clipLower, nanSub, max_comm]
  · rintro c p (rfl | rfl)
    · rfl
    · cases c <;> rfl
  · rintro c p x h
    cases c with
    | none => exact absurd h (by simp [growthVariant, clipLower, nanSub])
    | some a =>
      cases p with
      | none => exact absurd h (by simp [growthVariant, clipLower, nanSub])
      | some b =>
        have hx : x = max (a - b) 0 := by
          simpa [growthVariant, clipLower, nanSub] using h.symm
        rw [hx]
        exact le_max_right _ _

/-- Instantiation of the C5 theorem on a concrete table: current values
`[5, 3, null]` and previous values `[2, null, 1]` yield the growth column
`[3, null, null]`. -/
theorem C5_growth_variant_witness :
    ((("m", "growth"), [some (3:ℚ), none, none]) ∈
      calculateMetricVariants [("m", 1)] (fun _ => [some 5, some 3, none])
        (fun _ => [some 2, none, some 1])) := by
  have h := (C5_growth_variant [("m", 1)] (fun _ => [some 5, some 3, none])
    (fun _ => [some 2, none, some 1]) ("m") (by decide)).1
  have e : List.zipWith growthVariant [some (5:ℚ), some 3, none] [some 2, none, some 1] =
      [some (3:ℚ), none, none] := by
    simp [List.zipWith, growthVariant, clipLower, nanSub, max_def]
    norm_num
  rw [e] at h
  exact h

/-- C6 counterexample: with chain configuration `{"base": 2}` and a data
row on chain `"base"`, a case-insensitive lookup would apply weight 2, but
the code upper-cases only the configured code and looks the verbatim row
code `"base"` up among `{"BASE": 2}`, finds nothing and falls back to the
default weight 1: the aggregated cell is `1`, not `2`. -/
theorem C6_counterexample :
    (sumAndWeightByChain [("base", 2)] [c6Row]).map (fun w => w.cell ("Jun 2025") ("m")) = [1] ∧
    chainWeightLookup [("base", 2)] ("base") = 1 ∧
    chainWeightLookupSpec [("base", 2)] ("base") = 2 ∧
    (1 : ℚ) ≠ 2 := by
  have hl : List.lookup ("base") (chainWeights [("base", 2)]) = none := by decide
  have hu : List.lookup (upperStr ("base")) (chainWeights [("base", 2)]) = some 2 := by decide
  refine ⟨?_, ?_, ?_, by norm_num⟩
  · simp [sumAndWeightByChain, c6Row, groupKey, chainWeightLookup, hl]
  · simp [chainWeightLookup, hl]
  · simp [chainWeightLookupSpec, hu]

/-- C6 (amended): Step 2 multiplies every cell by the weight obtained by
looking up the row's chain code verbatim among the upper-cased configured
chain codes — case-insensitive in the configuration, but matching only
rows whose chain code is already upper-case — defaulting to 1.0 for codes
not found, then sums the weighted cells per
(project_id, project_name, display_name): the output has exactly one row
for each distinct key triple of the input. -/
theorem C6_chain_aggregation (chains : List (String × ℚ)) (rows : List PivotRow) :
    ((sumAndWeightByChain chains rows).map wgroupKey).Nodup ∧
    (∀ k, k ∈ (sumAndWeightByChain chains rows).map wgroupKey ↔ k ∈ rows.map groupKey) ∧
    (∀ w ∈ sumAndWeightByChain chains rows, ∀ p m,
      w.cell p m = ((rows.filter (fun r => groupKey r == wgroupKey w)).map
        (fun r => ((r.cell p m).map (fun v => v * chainWeightLookup chains r.chain)).getD 0)).sum) ∧
    (∀ c : String, chainWeightLookup chains c = ((chainWeights chains).lookup c).getD 1) := by
  have hmap : (sumAndWeightByChain chains rows).map wgroupKey = (rows.map groupKey).dedup := by
    unfold sumAndWeightByChain
    rw [List.map_map]
    exact List.map_id _
  refine ⟨?_, ?_, ?_, fun c => rfl⟩
  · rw [hmap]
    exact List.nodup_dedup _
  · intro k
    rw [hmap]
    exact List.mem_dedup
  · intro w hw p m
    rcases List.mem_map.mp hw with ⟨k, _, rfl⟩
    rfl

/-- Instantiation of the amended C6 theorem: a two-chain project (upper
chain codes `"OP"` weighted 2 and the unconfigured `"BASE"` defaulting to
1) keeps exactly one output row. -/
theorem C6_chain_aggregation_witness :
    ((sumAndWeightByChain [("OP", (2:ℚ))]
      [{ pid := "p", pname := "n", dname := "d", chain := "OP", cell := fun _ _ => some 3 },
       { pid := "p", pname := "n", dname := "d", chain := "BASE", cell := fun _ _ => some 5 }]).map
        wgroupKey).Nodup :=
  (C6_chain_aggregation [("OP", (2:ℚ))]
    [{ pid := "p", pname := "n", dname := "d", chain := "OP", cell := fun _ _ => some 3 },
     { pid := "p", pname := "n", dname := "d", chain := "BASE", cell := fun _ _ => some 5 }]).1

/-- C7: with `tvl_minimum > 0` and a single TVL-tagged metric `t` (the
floor's `tvl_metrics` list may repeat it, as the aliased append makes it
do), the floor nulls exactly the TVL cells, per period independently:
non-TVL cells and cells outside the configured periods are untouched, and
for a configured period the TVL cell of a project becomes null exactly
when the project's TVL total summed across its chain rows for that same
period is strictly below the minimum. -/
theorem C7_tvl_floor (tvlMin : ℚ) (t : String) (tvlMs periodsLabels : List String)
    (rows : List PivotRow) (hmin : 0 < tvlMin) (ht : t ∈ tvlMs)
    (hall : ∀ x ∈ tvlMs, x = t) :
    pivotAndFloor tvlMin tvlMs periodsLabels rows =
      applyTvlFloor tvlMin tvlMs periodsLabels rows ∧
    (∀ (r : PivotRow) (p m : String), m ≠ t →
      flooredCell tvlMin tvlMs periodsLabels rows r p m = r.cell p m) ∧
    (∀ (r : PivotRow) (p m : String), p ∉ periodsLabels →
      flooredCell tvlMin tvlMs periodsLabels rows r p m = r.cell p m) ∧
    (∀ (r : PivotRow) (p : String), p ∈ periodsLabels →
      flooredCell tvlMin tvlMs periodsLabels rows r p t =
        if projectMetricChainSum rows r.pid p t < tvlMin then none else r.cell p t) := by
  have contains_iff : ∀ (l : List String) (a : String), l.contains a = true ↔ a ∈ l := by
    intro l a
    rw [List.contains_eq_any_beq, List.any_eq_true]
    constructor
    · rintro ⟨x, hx, hb⟩
      exact (beq_iff_eq.mp hb) ▸ hx
    · intro h
      exact ⟨a, h, beq_self_eq_true a⟩
  refine ⟨by simp [pivotAndFloor, hmin], ?_, ?_, ?_⟩
  · intro r p m hm
    unfold flooredCell
    rw [if_neg]
    intro hcond
    rcases (Bool.and_eq_true _ _).mp hcond with ⟨hpm, _⟩
    rcases (Bool.and_eq_true _ _).mp hpm with ⟨_, hm2⟩
    exact hm (hall m ((contains_iff _ _).mp hm2))
  · intro r p m hp
    unfold flooredCell
    rw [if_neg]
    intro hcond
    rcases (Bool.and_eq_true _ _).mp hcond with ⟨hpm, _⟩
    rcases (Bool.and_eq_true _ _).mp hpm with ⟨hp2, _⟩
    exact hp ((contains_iff _ _).mp hp2)
  · intro r p hp
    have hcp : periodsLabels.contains p = true := (contains_iff _ _).mpr hp
    have hct : tvlMs.contains t = true := (contains_iff _ _).mpr ht
    unfold flooredCell
    by_cases hlt : projectMetricChainSum rows r.pid p t < tvlMin
    · have hbel : projectBelowTvlMin tvlMin tvlMs rows r.pid p = true := by
        unfold projectBelowTvlMin
        rw [List.any_eq_true]
        exact ⟨t, ht, decide_eq_true hlt⟩
      rw [hcp, hct, hbel, if_pos hlt]
      rfl
    · have hbel : projectBelowTvlMin tvlMin tvlMs rows r.pid p = false := by
        unfold projectBelowTvlMin
        rw [← Bool.not_eq_true, List.any_eq_true]
        rintro ⟨x, hx, hdec⟩
        exact hlt ((hall x hx) ▸ of_decide_eq_true hdec)
      rw [hcp, hct, hbel, if_neg hlt]
      rfl

/-- Instantiation of the C7 theorem: with `tvl_minimum = 100` a project
whose chain rows hold TVL `30 + 20 = 50 < 100` in the current period has
its current-period TVL cell set to null. -/
theorem C7_tvl_floor_witness :
    flooredCell 100 ["defillama_tvl"] ["Jun 2025", "May 2025"] [c7RowA, c7RowB] c7RowA
      ("Jun 2025") ("defillama_tvl") = none := by
  have h := (C7_tvl_floor 100 ("defillama_tvl") ["defillama_tvl"] ["Jun 2025", "May 2025"]
    [c7RowA, c7RowB] (by norm_num) (by decide) (by decide)).2.2.2 c7RowA ("Jun 2025")
    (by decide)
  have hlt : projectMetricChainSum [c7RowA, c7RowB] c7RowA.pid ("Jun 2025")
      ("defillama_tvl") < 100 := by
    norm_num [projectMetricChainSum, c7RowA, c7RowB, List.filter]
  rw [h, if_pos hlt]

/-- C8: when `tvl_maximum > 0` and current-period TVL columns exist, the
Finalizer's filter maps the score of exactly those projects whose
current-period TVL total (summed over the TVL-tagged columns of the
chain-weighted table) strictly exceeds the maximum to 0, leaves every
other project's score unchanged, and the final table still contains every
chain-weighted row — sorting permutes but drops nothing. -/
theorem C8_tvl_maximum_filter (tvlMax : ℚ) (periodKeys variantNames : List String)
    (currentPeriod : String) (cols : List (String × String)) (rows : List WeightedRow)
    (scores : List (Option ℚ)) (hmax : 0 < tvlMax) (hlen : rows.length = scores.length)
    (hcols : tvlColumns periodKeys variantNames currentPeriod cols ≠ []) :
    (∀ (i : ℕ) (hi : i < rows.length),
      (applyTvlMaximumFilter tvlMax periodKeys variantNames currentPeriod cols rows
        scores)[i]? =
        some (if tvlMax < weightedRowTvlTotal periodKeys variantNames currentPeriod cols
                rows[i]
              then some 0 else scores[i])) ∧
    ((prepareFinalResults tvlMax periodKeys variantNames currentPeriod cols rows
        scores).map Prod.fst).Perm rows := by
  constructor
  · intro i hi
    have hiz : i < (rows.zip scores).length := by
      rw [List.length_zip, hlen, min_self]
      exact hlen ▸ hi
    unfold applyTvlMaximumFilter
    rw [if_neg hcols]
    rw [List.getElem?_eq_getElem (by simpa using hiz)]
    rw [List.getElem_map, List.getElem_zip]
  · have hlen2 : rows.length ≤ (prepareScores (if 0 < tvlMax then
        applyTvlMaximumFilter tvlMax periodKeys variantNames currentPeriod cols rows scores
      else scores)).length := by
      rw [prepareScores_length, if_pos hmax,
        applyTvlMaximumFilter_length tvlMax periodKeys variantNames currentPeriod cols rows
          scores hlen, hlen]
    have hperm := (List.mergeSort_perm (rows.zip (prepareScores (if 0 < tvlMax then
        applyTvlMaximumFilter tvlMax periodKeys variantNames currentPeriod cols rows scores
      else scores))) scoreDescLe).map Prod.fst
    rw [List.map_fst_zip rows _ hlen2] at hperm
    exact hperm

/-- Instantiation of the C8 theorem: with `tvl_maximum = 1000`, the
project with TVL 1500 has its score forced to 0 by the filter. -/
theorem C8_tvl_maximum_filter_witness :
    (applyTvlMaximumFilter 1000 ["current", "previous"]
      ["adoption", "growth", "retention"] ("Jun 2025") c8Cols [c8RowHigh, c8RowLow]
      [some (7 : ℚ), some 9])[0]? = some (some 0) := by
  have h := (C8_tvl_maximum_filter 1000 ["current", "previous"]
    ["adoption", "growth", "retention"] ("Jun 2025") c8Cols [c8RowHigh, c8RowLow]
    [some (7 : ℚ), some 9] (by norm_num) rfl (by decide)).1 0 (by norm_num)
  have e : tvlColumns ["current", "previous"] ["adoption", "growth", "retention"]
      ("Jun 2025") c8Cols = [("Jun 2025", "defillama_tvl")] := by decide
  have etot : weightedRowTvlTotal ["current", "previous"]
      ["adoption", "growth", "retention"] ("Jun 2025") c8Cols c8RowHigh = 1500 := by
    rw [weightedRowTvlTotal, e]
    norm_num [c8RowHigh]
  rw [h]
  norm_num [etot]

/-- C9 counterexample: with the eligibility filter enabled, the row of a
project with a missing eligibility flag is dropped (pandas `NaN == True`
is false), although the claim says such a project is treated as eligible
and its rows are kept. -/
theorem C9_counterexample :
    eligibilityFilter true [c9Row] = [] ∧ ([] : List RawRow) ≠ [c9Row] := by
  refine ⟨rfl, ?_⟩
  intro h
  exact List.cons_ne_nil c9Row [] h.symm

/-- C9 (amended): the eligibility filtering happens before every other
stage — `run_analysis` factors through the rest of the pipeline applied to
the filtered rows — and with the filter enabled exactly the rows whose
`is_eligible` flag is present and `True` survive; a missing flag drops the
row. With the filter disabled all rows pass. -/
theorem C9_eligibility (rows : List RawRow) :
    (∀ r : RawRow, r ∈ eligibilityFilter true rows ↔
      r ∈ rows ∧ r.is_eligible = some true) ∧
    (∀ (cfg : SimulationConfig) (rs : List RawRow),
      runAnalysis cfg rs = pipelineAfterEligibility cfg
        (eligibilityFilter cfg.eligibility_filter rs)) ∧
    eligibilityFilter false rows = rows := by
  refine ⟨?_, fun cfg rs => rfl, rfl⟩
  intro r
  show r ∈ rows.filter (fun r => r.is_eligible == some true) ↔ _
  rw [List.mem_filter]
  exact and_congr_right (fun _ => beq_iff_eq)

/-- Instantiation of the amended C9 theorem: the explicitly eligible row
survives the enabled filter. -/
theorem C9_eligibility_witness :
    c9KeptRow ∈ eligibilityFilter true [c9KeptRow, c9Row] :=
  ((C9_eligibility [c9KeptRow, c9Row]).1 c9KeptRow).mpr ⟨by simp, rfl⟩

/-- C10: `run_analysis` invokes the aggregation step without a method
argument, so with the python default `power_mean`: the dispatch always
takes the `power_mean` branch — never the `sum` branch and never the
invalid-method `ValueError` — and `run_analysis` always returns a result. -/
theorem C10_run_analysis_uses_power_mean (cfg : SimulationConfig) (rows : List RawRow) :
    (∀ (cols : List ((String × String) × List (Option ℚ))) (n : ℕ),
      aggregateMetricVariants defaultAggregationMethod cols n =
        Except.ok ((List.range n).map (fun i => powerMeanScore (rowOfColumns cols i)))) ∧
    (∃ out, runAnalysis cfg rows = Except.ok out) := by
  have hagg : ∀ (cols : List ((String × String) × List (Option ℚ))) (n : ℕ),
      aggregateMetricVariants defaultAggregationMethod cols n =
        Except.ok ((List.range n).map (fun i => powerMeanScore (rowOfColumns cols i))) := by
    intro cols n
    unfold aggregateMetricVariants defaultAggregationMethod
    rw [if_pos rfl]
  refine ⟨hagg, ?_⟩
  unfold runAnalysis pipelineAfterEligibility
  simp only [hagg, Except.map]
  exact ⟨_, rfl⟩

end RetroFunding
